import Mathlib

/-!
Verification of the SiteWatch change-detection and snapshot-retention engine
(`src/script.py`) against its design specification.

The per-target snapshot directory is modelled as a list of `SnapFile`
(filename plus text content); directory order is immaterial because the
source sorts listings before using them.  HTML markup is modelled at the
parse-tree level (`Doc`), since the source hands parsing to an external
library and only traverses the resulting tree.  Filesystem read and write
failures, and notification-send failures, are modelled by explicit boolean
oracles, matching the `try/except` structure of the source.
-/

namespace SiteWatch

/-- One file in a target's snapshot directory: its filename and its text
content.  Models one `{timestamp}.md` file under `webpage_versions/{hash}/`. -/
structure SnapFile where
  name : String
  content : String
deriving DecidableEq

/-- Python `sorted` comparison on directory entries (paths in one directory
compare lexicographically by filename, code point by code point). -/
def fileLe (a b : SnapFile) : Prop := a.name.data ≤ b.name.data

instance : DecidableRel fileLe := fun a b => (inferInstance : Decidable (a.name.data ≤ b.name.data))

instance : IsTotal SnapFile fileLe := ⟨fun a b => le_total a.name.data b.name.data⟩

instance : IsTrans SnapFile fileLe := ⟨fun _ _ _ h h' => le_trans h h'⟩

/-- `sorted(files)` of `script.py`: ascending by filename. -/
def sortFiles (l : List SnapFile) : List SnapFile := List.insertionSort fileLe l

/-- `f.suffix == ".md"` of `cleanup_old_files` (all snapshot filenames are a
nonempty digit stem followed by `.md`, so the suffix test is an
ends-with-`.md` test on the filename). -/
def isMd (f : SnapFile) : Bool :=
  match f.name.data.reverse with
  | 'd' :: 'm' :: '.' :: _ => true
  | _ => false

/-- The filename `f"{timestamp}.md"` chosen by `save_content` for epoch
millisecond `ts`. -/
def snapName (ts : Nat) : String := toString ts ++ ".md"

/-- Writing a file into a directory: `open("w")` truncates and rewrites an
existing file of the same name, otherwise a new directory entry appears. -/
def writeFile (store : List SnapFile) (name content : String) : List SnapFile :=
  if store.any (fun f => f.name == name) then
    store.map (fun f => if f.name = name then ⟨name, content⟩ else f)
  else store ++ [⟨name, content⟩]

/-- `save_content` of `script.py`: writes `content` to `{timestamp}.md` in the
target's directory (creating the directory if needed, which the list model
absorbs). -/
def save_content (store : List SnapFile) (ts : Nat) (content : String) : List SnapFile :=
  writeFile store (snapName ts) content

/-- `load_last_saved_file` of `script.py`: sorts all files descending, reads
the first; a missing/empty directory gives `None`, and a read failure
(`readOk = false`) is caught and also gives `None`. -/
def load_last_saved_file (store : List SnapFile) (readOk : Bool) : Option String :=
  match (sortFiles store).reverse with
  | [] => none
  | f :: _ => if readOk then some f.content else none

/-- Python's `l[:-k]` slice for natural `k`: all but the last `k` elements,
except that `l[:-0]` is `l[:0] = []`. -/
def pySliceDropLast (l : List SnapFile) (k : Nat) : List SnapFile :=
  if k = 0 then [] else l.take (l.length - k)

/-- `cleanup_old_files` of `script.py`: lists the `.md` files ascending and,
when more than `keep` are present, deletes every file of `files[:-keep]`
(deletion modelled as succeeding; a failed deletion only leaves an extra
file behind). -/
def cleanup_old_files (store : List SnapFile) (keep : Nat) : List SnapFile :=
  let files := sortFiles (store.filter isMd)
  if files.length ≤ keep then store
  else
    let toDelete := pySliceDropLast files keep
    store.filter (fun f => !(toDelete.any (fun g => g.name == f.name)))

/-! ### The extractor -/

/-- The whitespace characters relevant to this development; Python's
`str.strip` removes (at least) these. -/
def isPySpace (c : Char) : Bool := c = ' ' || c = '\t' || c = '\r' || c = '\n'

/-- `line.strip()` on the character list of a line. -/
def stripChars (l : List Char) : List Char :=
  ((l.dropWhile isPySpace).reverse.dropWhile isPySpace).reverse

/-- `line.strip()` on a string. -/
def stripLine (s : String) : String := String.mk (stripChars s.data)

/-- Splitting a character list at every newline, keeping empty segments
(`"a\n"` gives segments `a` and an empty trailing segment). -/
def splitNl : List Char → List (List Char)
  | [] => [[]]
  | c :: cs =>
    let r := splitNl cs
    if c = '\n' then [] :: r
    else (c :: r.headI) :: r.tail

/-- Removing the trailing empty segment that `splitNl` produces for
newline-terminated input; with it, `splitNl` matches `str.splitlines`
(e.g. the empty string yields no lines, and `"a\n"` yields one). -/
def dropLastEmpty (ls : List (List Char)) : List (List Char) :=
  if ls.getLast? = some [] then ls.dropLast else ls

/-- `visible_text.splitlines()` of `extract_visible_text`. -/
def pyLines (s : String) : List String :=
  (dropLastEmpty (splitNl s.data)).map (fun l => String.mk l)

/-- `"\n".join` of Python. -/
def joinNl : List String → String
  | [] => ""
  | [s] => s
  | s :: rest => s ++ "\n" ++ joinNl rest

/-- The whitespace clean-up of `extract_visible_text`:
`lines = [line.strip() for line in text.splitlines()]` followed by
`"\n".join(line for line in lines if line)`. -/
def cleanupText (t : String) : String :=
  let lines := (pyLines t).map stripLine
  joinNl (lines.filter (fun l => !(l == "")))

/-- The parsed HTML forest: a sequence of sibling nodes, each either a text
node (`txt s rest`) or an element with a tag, its children, and its following
siblings (`elem tag children rest`). -/
inductive Doc where
  | nil : Doc
  | txt : String → Doc → Doc
  | elem : String → Doc → Doc → Doc
deriving DecidableEq

/-- The tags removed by `soup(["script", "style", "noscript"])`. -/
def badTag (t : String) : Bool := t = "script" || t = "style" || t = "noscript"

/-- The `element.decompose()` loop: removes every script/style/noscript
element together with its entire subtree. -/
def decomposeBad : Doc → Doc
  | .nil => .nil
  | .txt s d => .txt s (decomposeBad d)
  | .elem t c d => if badTag t then decomposeBad d else .elem t (decomposeBad c) (decomposeBad d)

/-- The text nodes of the tree in document order; `get_text` concatenates
exactly these. -/
def docStrings : Doc → List String
  | .nil => []
  | .txt s d => s :: docStrings d
  | .elem _ c d => docStrings c ++ docStrings d

/-- `soup.get_text(separator="\n")`. -/
def getText (d : Doc) : String := joinNl (docStrings d)

/-- A fetched page: the raw markup string together with its parse tree (the
parser itself is an external library; the tree is its interface). -/
structure Markup where
  raw : String
  doc : Doc

/-- `extract_visible_text` of `script.py`: `None` for empty input
(`if not html`), otherwise the cleaned visible text of the tree with
script/style/noscript removed. -/
def extract_visible_text (m : Markup) : Option String :=
  if m.raw = "" then none
  else some (cleanupText (getText (decomposeBad m.doc)))

/-! ### Notification and the per-target cycle -/

/-- `notify_change` of `script.py`: skips when the API key or the recipient
list is missing, otherwise attempts the send; a send failure (`sendOk =
false`) is caught inside the function, so it never raises.  Returns whether
an email was actually delivered. -/
def notify_change (apiKey : Option String) (recipients : List String) (sendOk : Bool) : Bool :=
  match apiKey with
  | none => false
  | some _ => if recipients.isEmpty then false else sendOk

/-- Outcome of one `monitor_site` call: the target's directory afterwards,
how many times `notify_change` was invoked, whether an email was delivered,
and whether an exception escaped to `main`'s per-target handler. -/
structure CycleResult where
  store : List SnapFile
  notifies : Nat
  sent : Bool
  raised : Bool
deriving DecidableEq

/-- The detect-and-act part of `monitor_site` once the fetch has succeeded:
`previous` is what `load_last_saved_file` returned, `extracted` what
`extract_visible_text` returned.  Mirrors lines 234-251 of `script.py`. -/
def monitor_body (store : List SnapFile) (previous extracted : Option String)
    (writeOk : Bool) (apiKey : Option String) (recipients : List String)
    (sendOk : Bool) (now : Nat) : CycleResult :=
  match extracted with
  | none => ⟨store, 0, false, false⟩
  | some current =>
    match previous with
    | none =>
      if writeOk then ⟨save_content store now current, 0, false, false⟩
      else ⟨store, 0, false, true⟩
    | some prev =>
      if current ≠ prev then
        if writeOk then
          ⟨cleanup_old_files (save_content store now current) 10, 1,
            notify_change apiKey recipients sendOk, false⟩
        else ⟨store, 0, false, true⟩
      else
        ⟨cleanup_old_files store 10, 0, false, false⟩

/-- `monitor_site` of `script.py` for one target.  `readOk` is the oracle for
reading the previous snapshot, `fetched` the result of `get_page_content`
(`none` on fetch failure), `writeOk` the oracle for the snapshot write (a
failed write raises out of `monitor_site`), `now` the epoch-millisecond
clock reading used by `save_content`. -/
def monitor_site (store : List SnapFile) (readOk : Bool) (fetched : Option Markup)
    (writeOk : Bool) (apiKey : Option String) (recipients : List String)
    (sendOk : Bool) (now : Nat) : CycleResult :=
  match fetched with
  | none => ⟨store, 0, false, false⟩
  | some m =>
    monitor_body store (load_last_saved_file store readOk) (extract_visible_text m)
      writeOk apiKey recipients sendOk now

/-- No duplicate filenames: true of every real directory listing and
preserved by every operation of the store. -/
def namesNodup (l : List SnapFile) : Prop := (l.map SnapFile.name).Nodup

instance (l : List SnapFile) : Decidable (namesNodup l) :=
  (inferInstance : Decidable (l.map SnapFile.name).Nodup)

/-- The `keep` most recent files of a directory, ascending by filename. -/
def mostRecent (keep : Nat) (l : List SnapFile) : List SnapFile :=
  (sortFiles l).drop (l.length - keep)

/-- The kept lines of a line list: each line stripped, blank lines dropped. -/
def normSegs (segs : List (List Char)) : List String :=
  (segs.map (fun l => String.mk (stripChars l))).filter (fun l => !(l == ""))

/-- The visible lines a parse forest contributes after decomposition: each
remaining text node's lines, stripped, with blank lines dropped. -/
def visLines (d : Doc) : List String :=
  ((docStrings (decomposeBad d)).map (fun s => normSegs (splitNl s.data))).flatten

/-- Two parse forests that differ only in ways the extractor normalizes away:
equal text nodes, newline-free text nodes equal after stripping, an extra
whitespace-only text node on either side, equal elements with equivalent
children and siblings, or script/style/noscript elements with arbitrary,
possibly different, contents. -/
inductive WsEquiv : Doc → Doc → Prop
  | nil : WsEquiv .nil .nil
  | txt (s : String) {d₁ d₂ : Doc} : WsEquiv d₁ d₂ → WsEquiv (.txt s d₁) (.txt s d₂)
  | txtStrip {s₁ s₂ : String} {d₁ d₂ : Doc} :
      '\n' ∉ s₁.data → '\n' ∉ s₂.data → stripLine s₁ = stripLine s₂ →
      WsEquiv d₁ d₂ → WsEquiv (.txt s₁ d₁) (.txt s₂ d₂)
  | wsLeft {s : String} {d₁ d₂ : Doc} :
      s.data.all isPySpace = true → WsEquiv d₁ d₂ → WsEquiv (.txt s d₁) d₂
  | wsRight {s : String} {d₁ d₂ : Doc} :
      s.data.all isPySpace = true → WsEquiv d₁ d₂ → WsEquiv d₁ (.txt s d₂)
  | elemCong (t : String) {c₁ c₂ d₁ d₂ : Doc} :
      WsEquiv c₁ c₂ → WsEquiv d₁ d₂ → WsEquiv (.elem t c₁ d₁) (.elem t c₂ d₂)
  | badElem {t₁ t₂ : String} {c₁ c₂ d₁ d₂ : Doc} :
      badTag t₁ = true → badTag t₂ = true → WsEquiv d₁ d₂ →
      WsEquiv (.elem t₁ c₁ d₁) (.elem t₂ c₂ d₂)

/-! ### Concrete fixtures used by witnesses and counterexamples -/

/-- Markup whose visible text is `Hello`. -/
def mHello : Markup := ⟨"<p>Hello</p>", .elem "p" (.txt "Hello" .nil) .nil⟩

/-- Markup whose visible text is `a`. -/
def mA : Markup := ⟨"<p>a</p>", .elem "p" (.txt "a" .nil) .nil⟩

/-- Markup whose visible text is `b`. -/
def mB : Markup := ⟨"<p>b</p>", .elem "p" (.txt "b" .nil) .nil⟩

/-- Markup that is nonempty but has no visible text at all. -/
def mScriptOnly : Markup := ⟨"<script>x</script>", .elem "script" (.txt "x" .nil) .nil⟩

/-- Markup whose only text node is `a b` (single interior space). -/
def mOneSpace : Markup := ⟨"<p>a b</p>", .elem "p" (.txt "a b" .nil) .nil⟩

/-- Markup whose only text node is `a  b` (two interior spaces): differs from
`mOneSpace` only in one whitespace run. -/
def mTwoSpaces : Markup := ⟨"<p>a  b</p>", .elem "p" (.txt "a  b" .nil) .nil⟩

/-- Markup with visible text `a` followed by a script element. -/
def mScriptA1 : Markup :=
  ⟨"<p>a</p><script>x</script>",
    .elem "p" (.txt "a" .nil) (.elem "script" (.txt "x" .nil) .nil)⟩

/-- Like `mScriptA1` but with different embedded script content. -/
def mScriptA2 : Markup :=
  ⟨"<p>a</p><script>yy</script>",
    .elem "p" (.txt "a" .nil) (.elem "script" (.txt "yy" .nil) .nil)⟩

/-- A directory holding one snapshot `1.md` with text `a`. -/
def store1 : List SnapFile := [⟨"1.md", "a"⟩]

/-- A directory already holding ten snapshots `0.md` … `9.md`. -/
def store10 : List SnapFile :=
  [⟨"0.md", "x"⟩, ⟨"1.md", "x"⟩, ⟨"2.md", "x"⟩, ⟨"3.md", "x"⟩, ⟨"4.md", "x"⟩,
   ⟨"5.md", "x"⟩, ⟨"6.md", "x"⟩, ⟨"7.md", "x"⟩, ⟨"8.md", "x"⟩, ⟨"9.md", "x"⟩]

/-! ### Basic facts about sorting and the store -/

theorem mem_sortFiles {l : List SnapFile} {x : SnapFile} : x ∈ sortFiles l ↔ x ∈ l :=
  (List.perm_insertionSort fileLe l).mem_iff

theorem sortFiles_sorted (l : List SnapFile) : List.Sorted fileLe (sortFiles l) :=
  List.sorted_insertionSort fileLe l

theorem sortFiles_perm (l : List SnapFile) : List.Perm (sortFiles l) l :=
  List.perm_insertionSort fileLe l

theorem sortFiles_length (l : List SnapFile) : (sortFiles l).length = l.length :=
  (sortFiles_perm l).length_eq

theorem sortFiles_namesNodup {l : List SnapFile} (h : namesNodup l) :
    namesNodup (sortFiles l) :=
  (((sortFiles_perm l).map SnapFile.name).nodup_iff).mpr h

/-- Distinct filenames identify files: in a directory listing without
duplicate names, equal names mean the same file. -/
theorem name_inj {l : List SnapFile} (h : namesNodup l) {a b : SnapFile}
    (ha : a ∈ l) (hb : b ∈ l) (hn : a.name = b.name) : a = b :=
  List.inj_on_of_nodup_map h ha hb hn

/-- In an ascending directory listing, every entry compares at most the last. -/
theorem sorted_le_getLast :
    ∀ {l : List SnapFile}, List.Sorted fileLe l → ∀ {x : SnapFile}, x ∈ l →
      ∀ (hne : l ≠ []), fileLe x (l.getLast hne)
  | [], _, _, hx, hne => absurd rfl hne
  | a :: t, h, x, hx, hne => by
    rcases List.mem_cons.mp hx with rfl | hxt
    · cases t with
      | nil =>
        simp only [List.getLast]
        exact le_rfl
      | cons b t' =>
        have : (b :: t').getLast (by simp) ∈ b :: t' := List.getLast_mem _
        have hle := (List.sorted_cons.mp h).1 _ this
        simpa [List.getLast_cons] using hle
    · cases t with
      | nil => simp at hxt
      | cons b t' =>
        have := sorted_le_getLast (List.sorted_cons.mp h).2 hxt (by simp)
        simpa [List.getLast_cons] using this

/-- Snapshot filenames produced by `save_content` end in `.md`. -/
theorem isMd_snapName (ts : Nat) (c : String) : isMd ⟨snapName ts, c⟩ = true := by
  have hdata : (snapName ts).data = (toString ts).data ++ ['.', 'm', 'd'] := by
    show (toString ts ++ ".md").data = _
    cases h : toString ts with
    | mk l => simp [String.data, h, String.append]
  simp only [isMd, hdata, List.reverse_append]
  rfl

/-- A fresh write (no existing file of that name) appends one new entry. -/
theorem writeFile_fresh {store : List SnapFile} {name content : String}
    (h : ∀ f ∈ store, f.name ≠ name) :
    writeFile store name content = store ++ [⟨name, content⟩] := by
  unfold writeFile
  rw [if_neg]
  simp only [List.any_eq_true, beq_iff_eq, not_exists, not_and]
  intro f hf
  exact h f hf

/-- Writing the same filename a second time replaces the freshly appended
file's content rather than adding another entry. -/
theorem writeFile_append_overwrite {store : List SnapFile} {name : String} (a b : String)
    (h : ∀ f ∈ store, f.name ≠ name) :
    writeFile (store ++ [⟨name, a⟩]) name b = store ++ [⟨name, b⟩] := by
  have hmem : ((store ++ [(⟨name, a⟩ : SnapFile)]).any (fun f => f.name == name)) = true := by
    simp
  unfold writeFile
  rw [if_pos hmem, List.map_append]
  have hstore : store.map (fun f => if f.name = name then (⟨name, b⟩ : SnapFile) else f)
      = store := by
    conv_rhs => rw [← List.map_id store]
    apply List.map_congr_left
    intro f hf
    simp [h f hf]
  rw [hstore]
  simp

/-- Appending a file with a name not yet present keeps names duplicate-free. -/
theorem namesNodup_append_fresh {store : List SnapFile} {name : String} (c : String)
    (hnd : namesNodup store) (hne : ∀ f ∈ store, f.name ≠ name) :
    namesNodup (store ++ [⟨name, c⟩]) := by
  unfold namesNodup
  rw [List.map_append]
  refine List.nodup_append.mpr ⟨hnd, List.nodup_singleton _, ?_⟩
  intro x hx1 hx2
  simp only [List.map_cons, List.map_nil, List.mem_singleton] at hx2
  obtain ⟨f, hf, rfl⟩ := List.mem_map.mp hx1
  exact hne f hf hx2

/-- Pruning only ever removes files; it never adds or edits one. -/
theorem cleanup_subset {store : List SnapFile} {keep : Nat} {f : SnapFile}
    (h : f ∈ cleanup_old_files store keep) : f ∈ store := by
  unfold cleanup_old_files at h
  by_cases hb : (sortFiles (store.filter isMd)).length ≤ keep
  · rwa [if_pos hb] at h
  · rw [if_neg hb] at h
    exact List.mem_of_mem_filter h

theorem pySliceDropLast_zero (l : List SnapFile) : pySliceDropLast l 0 = [] := by
  simp [pySliceDropLast]

theorem pySliceDropLast_pos (l : List SnapFile) {k : Nat} (hk : k ≠ 0) :
    pySliceDropLast l k = l.take (l.length - k) := by
  simp [pySliceDropLast, hk]

/-- Filtering a listing to its `.md` entries keeps the names duplicate-free. -/
theorem namesNodup_filter {store : List SnapFile} (hnd : namesNodup store) :
    namesNodup (store.filter isMd) := by
  have h : (store.filter isMd).Sublist store := List.filter_sublist store
  exact (h.map SnapFile.name).nodup hnd

/-- The defensive-floor lemma: pruning, with any `keep` bound at all, never
deletes a `.md` file whose name is greatest among the `.md` files. -/
theorem cleanup_keeps_max {store : List SnapFile} {f : SnapFile} (keep : Nat)
    (hnd : namesNodup store) (hf : f ∈ store) (hmd : isMd f = true)
    (hmax : ∀ g ∈ store, isMd g = true → g.name.data ≤ f.name.data) :
    f ∈ cleanup_old_files store keep := by
  unfold cleanup_old_files
  by_cases hb : (sortFiles (store.filter isMd)).length ≤ keep
  · rw [if_pos hb]; exact hf
  · rw [if_neg hb]
    rcases Nat.eq_zero_or_pos keep with hk | hk
    · subst hk
      simpa [pySliceDropLast_zero] using hf
    set files := sortFiles (store.filter isMd) with hfiles
    rw [pySliceDropLast_pos _ (Nat.pos_iff_ne_zero.mp hk)]
    refine List.mem_filter.mpr ⟨hf, ?_⟩
    simp only [Bool.not_eq_eq_eq_not, Bool.not_true, List.any_eq_false, beq_iff_eq]
    intro g hg hgname
    -- `g` sits in the deleted prefix but shares `f`'s name, hence is `f`;
    -- yet `f` is maximal, so it cannot sit strictly before the kept suffix.
    have hgfiles : g ∈ files := List.mem_of_mem_take hg
    have hgstore : g ∈ store := List.mem_of_mem_filter (mem_sortFiles.mp hgfiles)
    have hgf : g = f := name_inj hnd hgstore hf hgname
    subst hgf
    have hfilesnd : files.Nodup :=
      List.Nodup.of_map _ (sortFiles_namesNodup (namesNodup_filter hnd))
    have hsplit := List.take_append_drop (files.length - keep) files
    have hdroplen : 0 < (files.drop (files.length - keep)).length := by
      rw [List.length_drop]
      omega
    obtain ⟨y, hy⟩ := List.exists_mem_of_length_pos hdroplen
    have hyfiles : y ∈ files := List.mem_of_mem_drop hy
    have hymd : isMd y = true := (List.mem_filter.mp (mem_sortFiles.mp hyfiles)).2
    have hystore : y ∈ store := List.mem_of_mem_filter (mem_sortFiles.mp hyfiles)
    have hyle : y.name.data ≤ g.name.data := hmax y hystore hymd
    have hgy : fileLe g y := by
      have hpair : files.Pairwise fileLe := sortFiles_sorted _
      rw [← hsplit] at hpair
      exact (List.pairwise_append.mp hpair).2.2 g hg y hy
    have : y = g := name_inj hnd hystore hgstore (String.ext (le_antisymm hyle hgy))
    subst this
    have hdisj : (files.take (files.length - keep)).Disjoint (files.drop (files.length - keep)) := by
      have : (files.take (files.length - keep) ++ files.drop (files.length - keep)).Nodup := by
        rwa [hsplit]
      exact List.disjoint_of_nodup_append this
    exact hdisj hg hy

/-- Membership after pruning with `keep ≥ 1`, for a directory of `.md` files
with distinct names: exactly the `keep` greatest filenames survive. -/
theorem cleanup_mem_iff {store : List SnapFile} {keep : Nat}
    (hnd : namesNodup store) (hmd : ∀ f ∈ store, isMd f = true) (hk : 1 ≤ keep)
    (f : SnapFile) :
    f ∈ cleanup_old_files store keep ↔ f ∈ mostRecent keep store := by
  have hfilter : store.filter isMd = store := List.filter_eq_self.mpr hmd
  unfold cleanup_old_files mostRecent
  rw [hfilter]
  by_cases hb : (sortFiles store).length ≤ keep
  · rw [if_pos hb]
    have : store.length - keep = 0 := by
      have := sortFiles_length store
      omega
    rw [this, List.drop_zero]
    exact mem_sortFiles.symm
  · rw [if_neg hb]
    rw [pySliceDropLast_pos _ (by omega)]
    have hlen : (sortFiles store).length = store.length := sortFiles_length store
    rw [hlen]
    have hsnd : (sortFiles store).Nodup := List.Nodup.of_map _ (sortFiles_namesNodup hnd)
    have hsplit := List.take_append_drop (store.length - keep) (sortFiles store)
    have hdisj : ((sortFiles store).take (store.length - keep)).Disjoint
        ((sortFiles store).drop (store.length - keep)) := by
      have : ((sortFiles store).take (store.length - keep) ++
          (sortFiles store).drop (store.length - keep)).Nodup := by rwa [hsplit]
      exact List.disjoint_of_nodup_append this
    constructor
    · intro hmem
      obtain ⟨hstore, hnotdel⟩ := List.mem_filter.mp hmem
      simp only [Bool.not_eq_eq_eq_not, Bool.not_true, List.any_eq_false, beq_iff_eq] at hnotdel
      have : f ∈ sortFiles store := mem_sortFiles.mpr hstore
      rw [← hsplit] at this
      rcases List.mem_append.mp this with htake | hdrop
      · exact absurd rfl (hnotdel f htake)
      · exact hdrop
    · intro hdrop
      have hffiles : f ∈ sortFiles store := List.mem_of_mem_drop hdrop
      refine List.mem_filter.mpr ⟨mem_sortFiles.mp hffiles, ?_⟩
      simp only [Bool.not_eq_eq_eq_not, Bool.not_true, List.any_eq_false, beq_iff_eq]
      intro g hg hgname
      have hgfiles : g ∈ sortFiles store := List.mem_of_mem_take hg
      have : g = f := name_inj hnd (mem_sortFiles.mp hgfiles) (mem_sortFiles.mp hffiles) hgname
      subst this
      exact hdisj hg hdrop

/-- After pruning with `keep ≥ 1`, at most `keep` files remain (directory of
`.md` files with distinct names). -/
theorem cleanup_length_le {store : List SnapFile} {keep : Nat}
    (hnd : namesNodup store) (hmd : ∀ f ∈ store, isMd f = true) (hk : 1 ≤ keep) :
    (cleanup_old_files store keep).length ≤ keep := by
  have hstorend : store.Nodup := List.Nodup.of_map _ hnd
  have hcnd : (cleanup_old_files store keep).Nodup := by
    unfold cleanup_old_files
    by_cases hb : (sortFiles (store.filter isMd)).length ≤ keep
    · rwa [if_pos hb]
    · rw [if_neg hb]
      exact hstorend.filter _
  have hmnd : (mostRecent keep store).Nodup :=
    (List.Nodup.of_map _ (sortFiles_namesNodup hnd)).sublist (List.drop_sublist _ _)
  have hperm : List.Perm (cleanup_old_files store keep) (mostRecent keep store) :=
    (List.perm_ext_iff_of_nodup hcnd hmnd).mpr (cleanup_mem_iff hnd hmd hk)
  have hlen : (mostRecent keep store).length ≤ keep := by
    unfold mostRecent
    rw [List.length_drop, sortFiles_length]
    omega
  calc (cleanup_old_files store keep).length
      = (mostRecent keep store).length := hperm.length_eq
    _ ≤ keep := hlen

/-- With a name not yet present, `save_content` appends one new entry. -/
theorem save_content_fresh {store : List SnapFile} {ts : Nat} (c : String)
    (h : ∀ f ∈ store, f.name ≠ snapName ts) :
    save_content store ts c = store ++ [⟨snapName ts, c⟩] :=
  writeFile_fresh h

/-- `load_last_saved_file` returns the content of the file whose name is the
strict lexicographic maximum of the directory. -/
theorem load_of_max {store : List SnapFile} {f : SnapFile}
    (hf : f ∈ store) (hmax : ∀ g ∈ store, g ≠ f → g.name.data < f.name.data) :
    load_last_saved_file store true = some f.content := by
  have hfl : f ∈ sortFiles store := mem_sortFiles.mpr hf
  have hne : sortFiles store ≠ [] := List.ne_nil_of_mem hfl
  have hy : (sortFiles store).getLast hne = f := by
    by_contra hneq
    have hymem : (sortFiles store).getLast hne ∈ sortFiles store := List.getLast_mem hne
    have hlt : ((sortFiles store).getLast hne).name.data < f.name.data :=
      hmax _ (mem_sortFiles.mp hymem) hneq
    have hle : fileLe f ((sortFiles store).getLast hne) :=
      sorted_le_getLast (sortFiles_sorted store) hfl hne
    exact absurd hle (not_le.mpr hlt)
  have hsplit : (sortFiles store).dropLast ++ [f] = sortFiles store := by
    rw [← hy]
    exact List.dropLast_append_getLast hne
  have hrev : (sortFiles store).reverse = f :: (sortFiles store).dropLast.reverse := by
    rw [← hsplit]
    simp
  unfold load_last_saved_file
  rw [hrev]
  rfl

/-! ### Facts about the extractor's normalization -/

theorem splitNl_newline_cons (l : List Char) : splitNl ('\n' :: l) = [] :: splitNl l := rfl

theorem splitNl_cons_of_ne {c : Char} (l : List Char) (h : ¬c = '\n') :
    splitNl (c :: l) = (c :: (splitNl l).headI) :: (splitNl l).tail := by
  show (if c = '\n' then [] :: splitNl l else (c :: (splitNl l).headI) :: (splitNl l).tail) = _
  rw [if_neg h]

theorem str_data_append (a b : String) : (a ++ b).data = a.data ++ b.data := by
  cases a; cases b; rfl

theorem normSegs_append (a b : List (List Char)) :
    normSegs (a ++ b) = normSegs a ++ normSegs b := by
  unfold normSegs
  rw [List.map_append, List.filter_append]

theorem splitNl_ne_nil (l : List Char) : splitNl l ≠ [] := by
  cases l with
  | nil => simp [splitNl]
  | cons c cs =>
    unfold splitNl
    by_cases h : c = '\n' <;> simp [h]

theorem splitNl_append_newline (xs ys : List Char) :
    splitNl (xs ++ '\n' :: ys) = splitNl xs ++ splitNl ys := by
  induction xs with
  | nil => simp [splitNl]
  | cons c cs ih =>
    by_cases h : c = '\n'
    · subst h
      rw [List.cons_append, splitNl_newline_cons, splitNl_newline_cons, ih, List.cons_append]
    · have h1 := splitNl_ne_nil cs
      rw [List.cons_append, splitNl_cons_of_ne _ h, splitNl_cons_of_ne _ h, ih]
      cases hcs : splitNl cs with
      | nil => exact absurd hcs h1
      | cons a as => simp [hcs]

/-- The trailing empty segment dropped by `splitlines` would have been dropped
by the blank-line filter anyway. -/
theorem normSegs_dropLastEmpty (ls : List (List Char)) :
    normSegs (dropLastEmpty ls) = normSegs ls := by
  unfold dropLastEmpty
  by_cases h : ls.getLast? = some []
  · rw [if_pos h]
    have hsplit : ls.dropLast ++ [[]] = ls := List.dropLast_append_getLast? _ h
    conv_rhs => rw [← hsplit]
    rw [normSegs_append]
    have : normSegs [[]] = [] := rfl
    rw [this, List.append_nil]
  · rw [if_neg h]

/-- The clean-up step of the extractor in terms of raw newline segments. -/
theorem cleanupText_eq (t : String) :
    cleanupText t = joinNl (normSegs (splitNl t.data)) := by
  simp only [cleanupText, pyLines, List.map_map]
  rw [← normSegs_dropLastEmpty]
  rfl

theorem joinNl_data_cons (s : String) (b : String) (bs : List String) :
    (joinNl (s :: b :: bs)).data = s.data ++ '\n' :: (joinNl (b :: bs)).data := by
  show (s ++ "\n" ++ joinNl (b :: bs)).data = _
  rw [str_data_append, str_data_append]
  simp

/-- Splitting the newline-join of the text nodes back into kept lines is the
same as keeping each node's own lines. -/
theorem normSegs_splitNl_joinNl :
    ∀ L : List String,
      normSegs (splitNl (joinNl L).data) = (L.map (fun s => normSegs (splitNl s.data))).flatten
  | [] => rfl
  | [s] => by simp [joinNl]
  | s :: b :: bs => by
    rw [joinNl_data_cons, splitNl_append_newline, normSegs_append,
      normSegs_splitNl_joinNl (b :: bs)]
    simp

/-- The extractor, for nonempty markup, produces exactly the newline-join of
the visible lines. -/
theorem extract_eq_visLines (m : Markup) (h : m.raw ≠ "") :
    extract_visible_text m = some (joinNl (visLines m.doc)) := by
  unfold extract_visible_text
  rw [if_neg h]
  unfold getText
  rw [cleanupText_eq, normSegs_splitNl_joinNl]
  rfl

theorem visLines_nil : visLines .nil = [] := rfl

theorem decomposeBad_elem (t : String) (c d : Doc) :
    decomposeBad (.elem t c d) =
      if badTag t then decomposeBad d else .elem t (decomposeBad c) (decomposeBad d) := rfl

theorem docStrings_elem (t : String) (c d : Doc) :
    docStrings (.elem t c d) = docStrings c ++ docStrings d := rfl

theorem visLines_txt (s : String) (d : Doc) :
    visLines (.txt s d) = normSegs (splitNl s.data) ++ visLines d := rfl

theorem visLines_elem (t : String) (c d : Doc) :
    visLines (.elem t c d) =
      if badTag t then visLines d else visLines c ++ visLines d := by
  unfold visLines
  rw [decomposeBad_elem]
  by_cases h : badTag t
  · rw [if_pos h, if_pos h]
  · rw [if_neg h, if_neg h, docStrings_elem, List.map_append, List.flatten_append]

/-- Whitespace-only characters strip to nothing. -/
theorem stripChars_all_space {l : List Char} (h : l.all isPySpace = true) :
    stripChars l = [] := by
  unfold stripChars
  have h1 : l.dropWhile isPySpace = [] :=
    List.dropWhile_eq_nil_iff.mpr (fun x hx => List.all_eq_true.mp h x hx)
  rw [h1]
  rfl

/-- Every newline segment of a whitespace-only character list is itself
whitespace-only. -/
theorem splitNl_all_space : ∀ {l : List Char}, l.all isPySpace = true →
    ∀ seg ∈ splitNl l, seg.all isPySpace = true := by
  intro l
  induction l with
  | nil =>
    intro _ seg hseg
    simp only [splitNl, List.mem_singleton] at hseg
    simp [hseg]
  | cons c cs ih =>
    intro h seg hseg
    rw [List.all_cons, Bool.and_eq_true] at h
    obtain ⟨hc, hcs⟩ := h
    by_cases hnl : c = '\n'
    · subst hnl
      rw [splitNl_newline_cons] at hseg
      rcases List.mem_cons.mp hseg with rfl | hseg'
      · rfl
      · exact ih hcs seg hseg'
    · rw [splitNl_cons_of_ne _ hnl] at hseg
      rcases List.mem_cons.mp hseg with rfl | hseg'
      · rw [List.all_cons, Bool.and_eq_true]
        refine ⟨hc, ?_⟩
        cases hr : splitNl cs with
        | nil => exact absurd hr (splitNl_ne_nil cs)
        | cons a as =>
          show a.all isPySpace = true
          exact ih hcs a (by rw [hr]; exact List.mem_cons_self a as)
      · exact ih hcs seg (List.mem_of_mem_tail hseg')

/-- A whitespace-only text contributes no visible line. -/
theorem normSegs_all_space {l : List Char} (h : l.all isPySpace = true) :
    normSegs (splitNl l) = [] := by
  unfold normSegs
  rw [List.filter_eq_nil_iff]
  intro x hx
  obtain ⟨seg, hseg, rfl⟩ := List.mem_map.mp hx
  rw [stripChars_all_space (splitNl_all_space h seg hseg)]
  simp

theorem splitNl_no_newline : ∀ {l : List Char}, '\n' ∉ l → splitNl l = [l] := by
  intro l
  induction l with
  | nil => intro _; rfl
  | cons c cs ih =>
    intro h
    have hc : ¬c = '\n' := fun e => h (e ▸ List.mem_cons_self c cs)
    rw [splitNl_cons_of_ne _ hc, ih (fun hm => h (List.mem_cons_of_mem _ hm))]
    rfl

/-- Newline-free texts with equal stripped forms contribute the same visible
lines. -/
theorem normSegs_of_stripEq {s₁ s₂ : String} (h₁ : '\n' ∉ s₁.data) (h₂ : '\n' ∉ s₂.data)
    (hs : stripLine s₁ = stripLine s₂) :
    normSegs (splitNl s₁.data) = normSegs (splitNl s₂.data) := by
  rw [splitNl_no_newline h₁, splitNl_no_newline h₂]
  have h3 : stripChars s₁.data = stripChars s₂.data := congrArg String.data hs
  simp only [normSegs, List.map_cons, List.map_nil, h3]

/-- Equivalent forests have identical visible lines. -/
theorem visLines_eq_of_wsEquiv {d₁ d₂ : Doc} (h : WsEquiv d₁ d₂) :
    visLines d₁ = visLines d₂ := by
  induction h with
  | nil => rfl
  | txt s _ ih => rw [visLines_txt, visLines_txt, ih]
  | txtStrip h₁ h₂ hs _ ih =>
    rw [visLines_txt, visLines_txt, ih, normSegs_of_stripEq h₁ h₂ hs]
  | wsLeft hs _ ih =>
    rw [visLines_txt, normSegs_all_space hs, List.nil_append, ih]
  | wsRight hs _ ih =>
    rw [visLines_txt, normSegs_all_space hs, List.nil_append, ih]
  | elemCong t _ _ ihc ihd =>
    rw [visLines_elem, visLines_elem, ihc, ihd]
  | badElem hb₁ hb₂ _ ih =>
    rw [visLines_elem, visLines_elem, if_pos hb₁, if_pos hb₂, ih]

/-- The extractor cannot tell equivalent nonempty markups apart. -/
theorem extract_eq_of_wsEquiv {m₁ m₂ : Markup} (h₁ : m₁.raw ≠ "") (h₂ : m₂.raw ≠ "")
    (h : WsEquiv m₁.doc m₂.doc) :
    extract_visible_text m₁ = extract_visible_text m₂ := by
  rw [extract_eq_visLines m₁ h₁, extract_eq_visLines m₂ h₂, visLines_eq_of_wsEquiv h]

/-! ### The four shapes a cycle can take -/

/-- A fetch failure returns before touching anything. -/
theorem monitor_site_fetch_failure (store : List SnapFile) (readOk writeOk : Bool)
    (apiKey : Option String) (recipients : List String) (sendOk : Bool) (now : Nat) :
    monitor_site store readOk none writeOk apiKey recipients sendOk now =
      ⟨store, 0, false, false⟩ := rfl

/-- An absent extraction returns before touching anything. -/
theorem monitor_site_extract_absent (store : List SnapFile) (readOk writeOk : Bool)
    (m : Markup) (apiKey : Option String) (recipients : List String) (sendOk : Bool)
    (now : Nat) (hx : extract_visible_text m = none) :
    monitor_site store readOk (some m) writeOk apiKey recipients sendOk now =
      ⟨store, 0, false, false⟩ := by
  show monitor_body store (load_last_saved_file store readOk) (extract_visible_text m)
      writeOk apiKey recipients sendOk now = _
  rw [hx]
  rfl

/-- First observation: save and return, without notification or pruning. -/
theorem monitor_site_first (store : List SnapFile) (readOk : Bool) (m : Markup)
    {cur : String} (apiKey : Option String) (recipients : List String) (sendOk : Bool)
    (now : Nat) (hload : load_last_saved_file store readOk = none)
    (hx : extract_visible_text m = some cur) :
    monitor_site store readOk (some m) true apiKey recipients sendOk now =
      ⟨save_content store now cur, 0, false, false⟩ := by
  show monitor_body store (load_last_saved_file store readOk) (extract_visible_text m)
      true apiKey recipients sendOk now = _
  rw [hx, hload]
  rfl

/-- No change: only pruning runs. -/
theorem monitor_site_no_change (store : List SnapFile) (m : Markup) {prev cur : String}
    (apiKey : Option String) (recipients : List String) (sendOk : Bool) (now : Nat)
    (hload : load_last_saved_file store true = some prev)
    (hx : extract_visible_text m = some cur) (heq : cur = prev) :
    monitor_site store true (some m) true apiKey recipients sendOk now =
      ⟨cleanup_old_files store 10, 0, false, false⟩ := by
  show monitor_body store (load_last_saved_file store true) (extract_visible_text m)
      true apiKey recipients sendOk now = _
  rw [hx, hload]
  simp [monitor_body, heq]

/-- Change detected with a successful write: save, notify, prune. -/
theorem monitor_site_change (store : List SnapFile) (m : Markup) {prev cur : String}
    (apiKey : Option String) (recipients : List String) (sendOk : Bool) (now : Nat)
    (hload : load_last_saved_file store true = some prev)
    (hx : extract_visible_text m = some cur) (hne : cur ≠ prev) :
    monitor_site store true (some m) true apiKey recipients sendOk now =
      ⟨cleanup_old_files (save_content store now cur) 10, 1,
        notify_change apiKey recipients sendOk, false⟩ := by
  show monitor_body store (load_last_saved_file store true) (extract_visible_text m)
      true apiKey recipients sendOk now = _
  rw [hx, hload]
  simp [monitor_body, hne]

/-- Change detected but the write fails: the exception escapes `monitor_site`
before notification and pruning. -/
theorem monitor_site_change_writefail (store : List SnapFile) (m : Markup)
    {prev cur : String} (apiKey : Option String) (recipients : List String)
    (sendOk : Bool) (now : Nat)
    (hload : load_last_saved_file store true = some prev)
    (hx : extract_visible_text m = some cur) (hne : cur ≠ prev) :
    monitor_site store true (some m) false apiKey recipients sendOk now =
      ⟨store, 0, false, true⟩ := by
  show monitor_body store (load_last_saved_file store true) (extract_visible_text m)
      false apiKey recipients sendOk now = _
  rw [hx, hload]
  simp [monitor_body, hne]

/-! ### The claims -/

/-- C2: for a target whose store holds no previous snapshot, a cycle with a
successful fetch and non-absent extraction stores exactly one snapshot, whose
content is the extracted text, and sends zero notifications. -/
theorem claim2_first_observation (m : Markup) (cur : String) (readOk : Bool)
    (apiKey : Option String) (recipients : List String) (sendOk : Bool) (now : Nat)
    (hx : extract_visible_text m = some cur) :
    monitor_site [] readOk (some m) true apiKey recipients sendOk now =
      ⟨[⟨snapName now, cur⟩], 0, false, false⟩ := by
  rw [monitor_site_first [] readOk m apiKey recipients sendOk now rfl hx]
  rfl

/-- C2 witness: the spec's `Hello` first-run scenario at a concrete input. -/
theorem claim2_first_observation_witness :
    monitor_site [] true (some mHello) true none [] false 7 =
      ⟨[⟨"7.md", "Hello"⟩], 0, false, false⟩ :=
  claim2_first_observation mHello "Hello" true none [] false 7 (by decide)

/-- C3: when the previous snapshot's text equals the current extraction, the
cycle stores nothing new and sends nothing; the directory undergoes only
retention pruning. -/
theorem claim3_no_change (store : List SnapFile) (m : Markup) (prev cur : String)
    (apiKey : Option String) (recipients : List String) (sendOk : Bool) (now : Nat)
    (hload : load_last_saved_file store true = some prev)
    (hx : extract_visible_text m = some cur) (heq : cur = prev) :
    monitor_site store true (some m) true apiKey recipients sendOk now =
      ⟨cleanup_old_files store 10, 0, false, false⟩ ∧
    ∀ f ∈ (monitor_site store true (some m) true apiKey recipients sendOk now).store,
      f ∈ store := by
  have h1 := monitor_site_no_change store m apiKey recipients sendOk now hload hx heq
  exact ⟨h1, fun f hf => cleanup_subset (by rw [h1] at hf; exact hf)⟩

/-- C3 witness: a no-change second check at a concrete input. -/
theorem claim3_no_change_witness :
    monitor_site store1 true (some mA) true none [] false 2 =
      ⟨cleanup_old_files store1 10, 0, false, false⟩ :=
  (claim3_no_change store1 mA "a" "a" none [] false 2 (by decide) (by decide) rfl).1

/-- C5 (amended): `save_content` derives the identifier from the millisecond
timestamp alone; a timestamp not yet present appends exactly one new snapshot
and leaves the rest untouched, while a second save within the same
millisecond reuses the identifier and silently overwrites the first. -/
theorem claim5_identifier_behaviour (store : List SnapFile) (ts : Nat) (a b c : String)
    (hfresh : ∀ f ∈ store, f.name ≠ snapName ts) :
    save_content store ts c = store ++ [⟨snapName ts, c⟩] ∧
    save_content (save_content store ts a) ts b = store ++ [⟨snapName ts, b⟩] := by
  refine ⟨save_content_fresh c hfresh, ?_⟩
  rw [save_content_fresh a hfresh]
  exact writeFile_append_overwrite a b hfresh

/-- C5 witness: the same-millisecond double save at a concrete input. -/
theorem claim5_identifier_behaviour_witness :
    save_content (save_content [] 5 "a") 5 "b" = [⟨"5.md", "b"⟩] :=
  (claim5_identifier_behaviour [] 5 "a" "b" "c" (by simp)).2

/-- C5 counterexample: two appends within the same millisecond do NOT produce
two distinct identifiers — a single file remains and the first content is
silently overwritten. -/
theorem claim5_counterexample :
    save_content (save_content [] 5 "a") 5 "b" = [⟨"5.md", "b"⟩] ∧
    (save_content (save_content [] 5 "a") 5 "b").length = 1 :=
  ⟨rfl, rfl⟩

/-- C6 (amended): if the snapshot write fails during a change-detected cycle,
the exception escapes `monitor_site` to the per-target handler in `main`: the
notification is not attempted, the store is unchanged, and pruning is
skipped for that cycle. -/
theorem claim6_write_failure (store : List SnapFile) (m : Markup) (prev cur : String)
    (apiKey : Option String) (recipients : List String) (sendOk : Bool) (now : Nat)
    (hload : load_last_saved_file store true = some prev)
    (hx : extract_visible_text m = some cur) (hne : cur ≠ prev) :
    monitor_site store true (some m) false apiKey recipients sendOk now =
      ⟨store, 0, false, true⟩ :=
  monitor_site_change_writefail store m apiKey recipients sendOk now hload hx hne

/-- C6 witness: a failed write on a changed page at a concrete input. -/
theorem claim6_write_failure_witness :
    monitor_site store1 true (some mB) false (some "key") ["ops"] true 2 =
      ⟨store1, 0, false, true⟩ :=
  claim6_write_failure store1 mB "a" "b" (some "key") ["ops"] true 2 (by decide) (by decide)
    (by decide)

/-- C6 counterexample: a change-detected cycle whose snapshot write fails
makes zero notification attempts and raises instead — the claim's
"notification still proceeds" is false of the code. -/
theorem claim6_counterexample :
    (monitor_site store1 true (some mB) false (some "key") ["ops"] true 2).notifies = 0 ∧
    (monitor_site store1 true (some mB) false (some "key") ["ops"] true 2).raised = true := by
  decide

/-- C7 (amended): extraction is absent exactly when the fetched markup is the
empty string, and only an absent extraction skips the detector, leaving the
store untouched with no notification; markup with empty visible text
extracts to the non-absent empty string. -/
theorem claim7_absent_extraction (store : List SnapFile) (readOk writeOk : Bool) (m : Markup)
    (apiKey : Option String) (recipients : List String) (sendOk : Bool) (now : Nat) :
    (extract_visible_text m = none ↔ m.raw = "") ∧
    (extract_visible_text m = none →
      monitor_site store readOk (some m) writeOk apiKey recipients sendOk now =
        ⟨store, 0, false, false⟩) := by
  constructor
  · unfold extract_visible_text
    by_cases h : m.raw = "" <;> simp [h]
  · intro hx
    exact monitor_site_extract_absent store readOk writeOk m apiKey recipients sendOk now hx

/-- C7 witness: empty markup is skipped, leaving the store untouched. -/
theorem claim7_absent_extraction_witness :
    monitor_site store1 true (some ⟨"", .nil⟩) true none [] false 3 =
      ⟨store1, 0, false, false⟩ :=
  (claim7_absent_extraction store1 true true ⟨"", .nil⟩ none [] false 3).2 (by decide)

/-- C7 counterexample: markup whose visible text is empty after normalization
is NOT treated as absent — the detector runs and stores a snapshot with empty
content on first observation. -/
theorem claim7_counterexample :
    extract_visible_text mScriptOnly = some "" ∧
    (monitor_site [] true (some mScriptOnly) true none [] false 7).store =
      [⟨"7.md", ""⟩] := by
  decide

/-- C9: retention pruning never deletes the snapshot whose identifier is last
in ascending order, for every keep bound including the misconfigured zero. -/
theorem claim9_never_deletes_most_recent (store : List SnapFile) (keep : Nat) (f : SnapFile)
    (hnd : namesNodup store) (hf : f ∈ store) (hmd : isMd f = true)
    (hmax : ∀ g ∈ store, isMd g = true → g.name.data ≤ f.name.data) :
    f ∈ cleanup_old_files store keep :=
  cleanup_keeps_max keep hnd hf hmd hmax

/-- C9 witness: pruning with the misconfigured bound `0` keeps the most
recent snapshot of a two-snapshot directory. -/
theorem claim9_never_deletes_most_recent_witness :
    (⟨"2.md", "b"⟩ : SnapFile) ∈ cleanup_old_files [⟨"1.md", "a"⟩, ⟨"2.md", "b"⟩] 0 :=
  claim9_never_deletes_most_recent [⟨"1.md", "a"⟩, ⟨"2.md", "b"⟩] 0 ⟨"2.md", "b"⟩
    (by decide) (by decide) (by decide) (by decide)

/-- C10: if the filename written by `save_content` sorts lexicographically
after every existing filename, an immediately following
`load_last_saved_file` returns exactly the text just saved. -/
theorem claim10_roundtrip (store : List SnapFile) (ts : Nat) (text : String)
    (hgt : ∀ f ∈ store, f.name.data < (snapName ts).data) :
    load_last_saved_file (save_content store ts text) true = some text := by
  have hne : ∀ f ∈ store, f.name ≠ snapName ts := by
    intro f hf h
    have hlt := hgt f hf
    rw [h] at hlt
    exact absurd hlt (lt_irrefl _)
  rw [save_content_fresh text hne]
  have hmem : (⟨snapName ts, text⟩ : SnapFile) ∈ store ++ [⟨snapName ts, text⟩] := by simp
  have hmax : ∀ g ∈ store ++ [⟨snapName ts, text⟩], g ≠ ⟨snapName ts, text⟩ →
      g.name.data < (⟨snapName ts, text⟩ : SnapFile).name.data := by
    intro g hg hne'
    rcases List.mem_append.mp hg with hg' | hg'
    · exact hgt g hg'
    · simp only [List.mem_singleton] at hg'
      exact absurd hg' hne'
  exact load_of_max hmem hmax

/-- C10 witness: saving `b` as `2.md` over a directory holding `1.md` and
reading it straight back. -/
theorem claim10_roundtrip_witness :
    load_last_saved_file (save_content store1 2 "b") true = some "b" :=
  claim10_roundtrip store1 2 "b" (by decide)

/-- C4: with a previous snapshot differing from the current extraction, the
cycle stores the new snapshot (which survives pruning as the most recent),
adds nothing else, makes exactly one notification attempt, and a failed send
does not remove or alter the stored result. -/
theorem claim4_change_detected (store : List SnapFile) (m : Markup) (prev cur : String)
    (apiKey : Option String) (recipients : List String) (sendOk : Bool) (now : Nat)
    (hnd : namesNodup store)
    (hload : load_last_saved_file store true = some prev)
    (hx : extract_visible_text m = some cur) (hne : cur ≠ prev)
    (hfresh : ∀ f ∈ store, f.name.data < (snapName now).data) :
    (monitor_site store true (some m) true apiKey recipients sendOk now).notifies = 1 ∧
    (⟨snapName now, cur⟩ : SnapFile) ∈
      (monitor_site store true (some m) true apiKey recipients sendOk now).store ∧
    (∀ f ∈ (monitor_site store true (some m) true apiKey recipients sendOk now).store,
      f ∈ store ∨ f = ⟨snapName now, cur⟩) ∧
    (monitor_site store true (some m) true apiKey recipients true now).store =
      (monitor_site store true (some m) true apiKey recipients false now).store := by
  have h1 := monitor_site_change store m apiKey recipients sendOk now hload hx hne
  have hne' : ∀ f ∈ store, f.name ≠ snapName now := by
    intro f hf h
    have hlt := hfresh f hf
    rw [h] at hlt
    exact absurd hlt (lt_irrefl _)
  have hsave : save_content store now cur = store ++ [⟨snapName now, cur⟩] :=
    save_content_fresh cur hne'
  have hnd' : namesNodup (store ++ [⟨snapName now, cur⟩]) :=
    namesNodup_append_fresh cur hnd hne'
  have hmem : (⟨snapName now, cur⟩ : SnapFile) ∈
      cleanup_old_files (store ++ [⟨snapName now, cur⟩]) 10 := by
    apply cleanup_keeps_max 10 hnd' (by simp) (isMd_snapName now cur)
    intro g hg hgmd
    rcases List.mem_append.mp hg with hg' | hg'
    · exact le_of_lt (hfresh g hg')
    · simp only [List.mem_singleton] at hg'
      subst hg'
      exact le_rfl
  refine ⟨by rw [h1], ?_, ?_, ?_⟩
  · rw [h1]
    show _ ∈ cleanup_old_files (save_content store now cur) 10
    rw [hsave]
    exact hmem
  · intro f hf
    rw [h1] at hf
    have hf' : f ∈ save_content store now cur := cleanup_subset hf
    rw [hsave] at hf'
    rcases List.mem_append.mp hf' with h' | h'
    · exact Or.inl h'
    · simp only [List.mem_singleton] at h'
      exact Or.inr h'
  · have hT := monitor_site_change store m apiKey recipients true now hload hx hne
    have hF := monitor_site_change store m apiKey recipients false now hload hx hne
    rw [hT, hF]

/-- C4 witness: a changed page at a concrete input makes exactly one
notification attempt. -/
theorem claim4_change_detected_witness :
    (monitor_site store1 true (some mB) true (some "key") ["ops"] true 2).notifies = 1 :=
  (claim4_change_detected store1 mB "a" "b" (some "key") ["ops"] true 2 (by decide)
    (by decide) (by decide) (by decide) (by decide)).1

/-- C1 (amended): after a no-change or change-detected cycle with successful
write and deletions, the stored snapshot count is at most the bound 10 and
the retained snapshots are exactly the (at most) 10 most recent by
identifier.  Pruning runs only in those two branches: first-observation,
fetch-failure, extraction-absent and read-failure cycles return early without
pruning. -/
theorem claim1_retention (store : List SnapFile) (m : Markup) (prev cur : String)
    (apiKey : Option String) (recipients : List String) (sendOk : Bool) (now : Nat)
    (hnd : namesNodup store) (hmd : ∀ f ∈ store, isMd f = true)
    (hload : load_last_saved_file store true = some prev)
    (hx : extract_visible_text m = some cur)
    (hfresh : ∀ f ∈ store, f.name.data < (snapName now).data) :
    (monitor_site store true (some m) true apiKey recipients sendOk now).store.length ≤ 10 ∧
    ∀ f, f ∈ (monitor_site store true (some m) true apiKey recipients sendOk now).store ↔
      f ∈ mostRecent 10 (if cur = prev then store else store ++ [⟨snapName now, cur⟩]) := by
  by_cases hc : cur = prev
  · have h1 := monitor_site_no_change store m apiKey recipients sendOk now hload hx hc
    rw [h1, if_pos hc]
    exact ⟨cleanup_length_le hnd hmd (by omega),
      fun f => cleanup_mem_iff hnd hmd (by omega) f⟩
  · have h1 := monitor_site_change store m apiKey recipients sendOk now hload hx hc
    rw [h1, if_neg hc]
    have hne' : ∀ f ∈ store, f.name ≠ snapName now := by
      intro f hf h
      have hlt := hfresh f hf
      rw [h] at hlt
      exact absurd hlt (lt_irrefl _)
    have hsave : save_content store now cur = store ++ [⟨snapName now, cur⟩] :=
      save_content_fresh cur hne'
    have hnd' : namesNodup (store ++ [⟨snapName now, cur⟩]) :=
      namesNodup_append_fresh cur hnd hne'
    have hmd' : ∀ f ∈ store ++ [⟨snapName now, cur⟩], isMd f = true := by
      intro f hf
      rcases List.mem_append.mp hf with h' | h'
      · exact hmd f h'
      · simp only [List.mem_singleton] at h'
        subst h'
        exact isMd_snapName now cur
    show (cleanup_old_files (save_content store now cur) 10).length ≤ 10 ∧ _
    rw [hsave]
    exact ⟨cleanup_length_le hnd' hmd' (by omega),
      fun f => cleanup_mem_iff hnd' hmd' (by omega) f⟩

/-- C1 witness: a change-detected cycle over a one-snapshot directory. -/
theorem claim1_retention_witness :
    (monitor_site store1 true (some mB) true none [] false 2).store.length ≤ 10 :=
  (claim1_retention store1 mB "a" "b" none [] false 2 (by decide) (by decide) (by decide)
    (by decide) (by decide)).1

/-- C1 counterexample: a read-failure cycle is treated as first observation,
which saves and returns without pruning — a directory already at the bound of
10 grows to 11 snapshots at the end of the cycle. -/
theorem claim1_counterexample :
    (monitor_site store10 false (some mB) true none [] false 99).store.length = 11 := by
  decide

/-- C8 (amended): markups that differ only in script/style/noscript content,
whitespace-only text nodes (blank lines), or leading/trailing whitespace of
newline-free text nodes extract to equal visible text, and a second check
seeing the equivalent markup takes the no-change outcome; interior
whitespace runs within a line are preserved verbatim. -/
theorem claim8_normalization (m₁ m₂ : Markup) (store : List SnapFile) (t : String)
    (apiKey : Option String) (recipients : List String) (sendOk : Bool) (now : Nat)
    (h₁ : m₁.raw ≠ "") (h₂ : m₂.raw ≠ "") (heq : WsEquiv m₁.doc m₂.doc) :
    extract_visible_text m₁ = extract_visible_text m₂ ∧
    (extract_visible_text m₁ = some t → load_last_saved_file store true = some t →
      monitor_site store true (some m₂) true apiKey recipients sendOk now =
        ⟨cleanup_old_files store 10, 0, false, false⟩) := by
  have hx := extract_eq_of_wsEquiv h₁ h₂ heq
  refine ⟨hx, fun hx₁ hload => ?_⟩
  have hx₂ : extract_visible_text m₂ = some t := by rw [← hx]; exact hx₁
  exact monitor_site_no_change store m₂ apiKey recipients sendOk now hload hx₂ rfl

/-- C8 witness: two markups differing only in embedded script content
extract identically. -/
theorem claim8_normalization_witness :
    extract_visible_text mScriptA1 = extract_visible_text mScriptA2 :=
  (claim8_normalization mScriptA1 mScriptA2 [] "a" none [] false 1 (by decide) (by decide)
    (WsEquiv.elemCong "p" (WsEquiv.txt "a" WsEquiv.nil)
      (WsEquiv.badElem rfl rfl WsEquiv.nil))).1

/-- C8 counterexample: two markups differing only in one interior whitespace
run extract to different visible text, and the second check then detects a
change and makes a notification attempt. -/
theorem claim8_counterexample :
    extract_visible_text mOneSpace = some "a b" ∧
    extract_visible_text mTwoSpaces = some "a  b" ∧
    extract_visible_text mOneSpace ≠ extract_visible_text mTwoSpaces ∧
    (monitor_site [⟨"1.md", "a b"⟩] true (some mTwoSpaces) true (some "key") ["ops"]
      true 2).notifies = 1 := by
  decide

/-! ### Evaluation checks of the embedding on concrete inputs -/

theorem sanity_snapName : snapName 5 = "5.md" := rfl

theorem sanity_isMd : isMd ⟨"5.md", "x"⟩ = true := rfl

theorem sanity_save : save_content [] 5 "a" = [⟨"5.md", "a"⟩] := rfl

theorem sanity_load : load_last_saved_file [⟨"1.md", "a"⟩, ⟨"2.md", "b"⟩] true = some "b" := by
  decide

theorem sanity_load_readfail : load_last_saved_file [⟨"1.md", "a"⟩] false = none := rfl

theorem sanity_cleanup : cleanup_old_files [⟨"1.md", "a"⟩, ⟨"2.md", "b"⟩, ⟨"3.md", "c"⟩] 2 =
    [⟨"2.md", "b"⟩, ⟨"3.md", "c"⟩] := by
  decide

theorem sanity_cleanupText : cleanupText "  a  \n\n b\n" = "a\nb" := rfl

theorem sanity_extract_empty : extract_visible_text ⟨"", .nil⟩ = none := rfl

end SiteWatch
